import Mathlib

/-!
Shallow embedding of `src/gan-dogs/model/evaluation.py`.

Tensors are modelled concretely: a single image is an `Image` (a shape
together with a flat list of rational pixel values); a batch of images is a
`List Image`.  Random sampling (`tf.random.truncated_normal`,
`tf.random.uniform`) is modelled by explicit streams `Nat → Rat` supplied to
each function; the GAN network itself is an abstract per-example generator
applied pointwise over the batch, the standard semantics of a batched
conditional generator.  Side effects (matplotlib display, `cv2.imwrite`)
become explicit return values: the list of displayed pixel arrays and the
list of `(filename, pixels)` write events, together with a flag that is
`false` when the Python loop would raise an index-out-of-bounds error.
-/

namespace GanDogs

/-- A single image tensor: a `height × width × channels` shape and a flat
row-major pixel list. -/
structure Image where
  height : Nat
  width : Nat
  channels : Nat
  pix : List Rat
deriving Repr, DecidableEq

/-- The GAN model as used by `evaluation.py`: the attributes `latent_dim` and
`num_classes` that the module reads, and the per-example generator network
(latent vector, class label, `training` flag ↦ image) that a batched call
`gan(inputs, training=...)` maps over the batch. -/
structure GAN where
  latent_dim : Nat
  num_classes : Nat
  generator : List Rat → Rat → Bool → Image

/-- `gan(inputs, training=t)` for `inputs = (latent_vectors, labels)`: the
generator applied to each (latent, label) pair of the batch. -/
def ganCall (gan : GAN) (latents : List (List Rat)) (labels : List Rat)
    (training : Bool) : List Image :=
  (latents.zip labels).map (fun p => gan.generator p.1 p.2 training)

/-- `tf.random.truncated_normal(shape=(k, d))` drawing its entries from the
stream `rng`: a `k`-element batch of `d`-dimensional latent vectors. -/
def truncated_normal (rng : Nat → Rat) (k d : Nat) : List (List Rat) :=
  (List.range k).map (fun i => (List.range d).map (fun j => rng (i * d + j)))

/-- `tf.math.floor(num_classes * tf.random.uniform((k, 1)))` with the uniform
draws taken from the stream `rng`: the random class labels fed to the GAN in
all three generation paths of `evaluation.py`. -/
def randomLabels (rng : Nat → Rat) (num_classes k : Nat) : List Rat :=
  (List.range k).map (fun i => (⌊(num_classes : Rat) * rng i⌋ : Int))

/-- Pixel normalization `img = (img + 1.) / 2.` applied in `sample` (line 38)
and in the plotting loop of `plot_imgs_grid` (line 116). -/
def normPix (x : Rat) : Rat := (x + 1) / 2

/-- NumPy's `astype('uint8')` on a float value: truncation toward zero
followed by reduction modulo 256. -/
def uint8OfRat (x : Rat) : Int :=
  (if 0 ≤ x then ⌊x⌋ else -⌊-x⌋) % 256

/-- `⌊√n⌋`, written as a bounded search so that it evaluates by kernel
reduction (`Nat.sqrt` is defined by well-founded recursion); proved equal to
`Nat.sqrt` below. -/
def floorSqrt (n : Nat) : Nat :=
  ((List.range (n + 1)).takeWhile (fun k => decide (k * k ≤ n))).length - 1

/-- `int(round(np.sqrt(n)))`: the nearest integer to `√n`.  With
`s = ⌊√n⌋` we have `round √n = s` exactly when `√n < s + 1/2`, i.e.
`n < s² + s + 1/4`, i.e. `n ≤ s² + s`; a tie `√n = s + 1/2` is impossible
for integer `n`, so the rounding mode is irrelevant. -/
def roundSqrt (n : Nat) : Nat :=
  let s := floorSqrt n
  if n ≤ s * s + s then s else s + 1

/-- The grid of axes produced by
`plt.subplots(int(round(grid_side)), int(round(grid_side)))` after
`np.reshape(axes, (-1,))`: the loop of `plot_imgs_grid` runs over these
`round(√n)²` flattened positions. -/
def gridIndices (n : Nat) : List Nat :=
  List.range (roundSqrt n * roundSqrt n)

/-- One write event of `cv2.imwrite`: the file name and the pixel values
written. -/
def WriteEvent := String × List Int
deriving DecidableEq

/-- `os.path.join(path, name)`. -/
def pathJoin (p name : String) : String := p ++ "/" ++ name

/-- The `for i, ax in enumerate(axes)` loop of `plot_imgs_grid`, over the
list of axis indices.  Returns the displayed (normalized) pixel arrays, the
write events performed, and `true` iff the loop ran to completion.  Two
exceptions abort the loop:
* indexing `imgs[i, ...]` past the end of the tensor raises, before the
  current image is displayed;
* in the save branch (guarded by `if path:`, which is falsy for `None` and
  for the empty string), a single-channel image was converted by
  `np.squeeze` into a plain NumPy array, so `img.numpy()` at line 128 raises
  `AttributeError` — after the image was displayed but before any
  `cv2.imwrite`. -/
def plotLoop (imgs : List Image) (path : Option String) (fc : Nat) :
    List Nat → List (List Rat) × List WriteEvent × Bool
  | [] => ([], [], true)
  | i :: rest =>
    match imgs[i]? with
    | none => ([], [], false)
    | some img =>
      let nimg := img.pix.map normPix
      match path with
      | none =>
        let r := plotLoop imgs none fc rest
        (nimg :: r.1, r.2.1, r.2.2)
      | some p =>
        if p = "" then
          let r := plotLoop imgs (some p) fc rest
          (nimg :: r.1, r.2.1, r.2.2)
        else if img.channels = 1 then
          ([nimg], [], false)
        else
          let r := plotLoop imgs (some p) fc rest
          (nimg :: r.1,
            (pathJoin p ("Dog_" ++ toString (fc + i)) ++ ".jpg",
              nimg.map (fun x => uint8OfRat (255 * x))) :: r.2.1,
            r.2.2)

/-- `plot_imgs_grid(imgs, path)`.  `fc` is the `file_counter` obtained by
recursively walking `path` (`sum(len(files) for r, d, files in os.walk(path))`),
i.e. the number of files already on disk under `path`; it is a parameter
because the filesystem is external state.  The result is (displayed images,
write events, no-exception flag). -/
def plot_imgs_grid (imgs : List Image) (path : Option String) (fc : Nat) :
    List (List Rat) × List WriteEvent × Bool :=
  plotLoop imgs path fc (gridIndices imgs.length)

/-- The images generated inside `sample` (lines 18–25):
`gan((truncated_normal(1, latent_dim), floor(num_classes * uniform(1,1))), training=False)`. -/
def sampleGenImgs (gan : GAN) (rngLatent rngLabel : Nat → Rat) : List Image :=
  ganCall gan (truncated_normal rngLatent 1 gan.latent_dim)
    (randomLabels rngLabel gan.num_classes 1) false

/-- The image displayed by `sample` (lines 37–46): `img = gen_imgs[0]` then
`img = (img + 1.) / 2.` then `plt.imshow(img)` (the `np.squeeze` on a
single-channel image reshapes without touching pixel values). -/
def sampleDisplayed (gan : GAN) (rngLatent rngLabel : Nat → Rat) : List Rat :=
  match (sampleGenImgs gan rngLatent rngLabel)[0]? with
  | some img => img.pix.map normPix
  | none => []

/-- The batch of generated images inside `compute_fid` (lines 77–83):
`gan((truncated_normal(16, latent_dim), floor(num_classes * uniform(16,1))), training=False)`. -/
def computeFidGenerated (gan : GAN) (rngLatent rngLabel : Nat → Rat) : List Image :=
  ganCall gan (truncated_normal rngLatent 16 gan.latent_dim)
    (randomLabels rngLabel gan.num_classes 16) false

/-- `compute_fid(gan, real_images)` (lines 65–91).  `scale_images` and
`calculate_fid` are imported from `.utils`, an external module, so they enter
the embedding as function parameters; `rngLatent` and `rngLabel` are the
random streams behind `tf.random.truncated_normal` and `tf.random.uniform`.
The body mirrors the Python line by line, including the unused local
`num_images`. -/
def compute_fid (calculate_fid : List Image → List Image → Rat)
    (scale_images : List Image → Nat × Nat × Nat → List Image)
    (gan : GAN) (real_images : List Image) (rngLatent rngLabel : Nat → Rat) : Rat :=
  let num_images := real_images.length
  let latent_samples := truncated_normal rngLatent 16 gan.latent_dim
  let random_labels := randomLabels rngLabel gan.num_classes 16
  let generated_images := ganCall gan latent_samples random_labels false
  let images1 := scale_images real_images (299, 299, 3)
  let images2 := scale_images generated_images (299, 299, 3)
  let fid := calculate_fid images1 images2
  fid

/-- Modelled from the spec: `scale_images` is imported from `.utils`, a file
of this repository that is not under `src/`; per the spec, "the FID
computation, image scaling, and GAN forward pass are all delegated to
external library calls".  It resizes each image of a batch to the given
target shape, here by nearest-neighbour resampling of the flat pixel list. -/
def scale_images_model (imgs : List Image) (shape : Nat × Nat × Nat) : List Image :=
  imgs.map (fun img =>
    { height := shape.1, width := shape.2.1, channels := shape.2.2,
      pix := (List.range (shape.1 * shape.2.1 * shape.2.2)).map (fun idx =>
        let i := idx / (shape.2.1 * shape.2.2)
        let j := (idx / shape.2.2) % shape.2.1
        let k := idx % shape.2.2
        img.pix.getD
          ((i * img.height / shape.1) * (img.width * img.channels)
            + (j * img.width / shape.2.1) * img.channels
            + k * img.channels / shape.2.2) 0) })

/-- `generate_and_plot_images(gan, num_images, save_path)` (lines 137–154):
generate `num_images` images from truncated-normal latents and random labels
with `training=False`, then hand them to `plot_imgs_grid`. -/
def generate_and_plot_images (gan : GAN) (num_images : Nat)
    (rngLatent rngLabel : Nat → Rat) (save_path : Option String) (fc : Nat) :
    List (List Rat) × List WriteEvent × Bool :=
  let latent_samples := truncated_normal rngLatent num_images gan.latent_dim
  let random_labels := randomLabels rngLabel gan.num_classes num_images
  let generated_images := ganCall gan latent_samples random_labels false
  plot_imgs_grid generated_images save_path fc

/-- The plot produced by `loss_curve`: for each `plt.plot(ys, label=l)` call
the x-values (`plt.plot` with a single data argument plots against index
`0, 1, ...`), the y-values and the label, plus the axis labels. -/
structure LossPlot where
  curves : List (List Nat × List Rat × String)
  xlabel : String
  ylabel : String
deriving DecidableEq

/-- `loss_curve(history)` (lines 49–62), with the history's `.history`
dictionary modelled as a lookup function from key to stored series. -/
def loss_curve (history : String → List Rat) : LossPlot :=
  { curves :=
      [(List.range (history "g_loss").length, history "g_loss", "generator loss"),
       (List.range (history "d_loss").length, history "d_loss", "discriminator loss")],
    xlabel := "Epoch",
    ylabel := "Loss" }

instance : Inhabited Image := ⟨⟨0, 0, 0, []⟩⟩

/-! ### Helper lemmas about the embedded definitions -/

theorem truncated_normal_length (rng : Nat → Rat) (k d : Nat) :
    (truncated_normal rng k d).length = k := by
  simp [truncated_normal]

theorem truncated_normal_mem_length (rng : Nat → Rat) (k d : Nat) :
    ∀ v ∈ truncated_normal rng k d, v.length = d := by
  intro v hv
  simp only [truncated_normal, List.mem_map] at hv
  obtain ⟨i, _, rfl⟩ := hv
  simp

theorem randomLabels_length (rng : Nat → Rat) (nc k : Nat) :
    (randomLabels rng nc k).length = k := by
  simp [randomLabels]

theorem ganCall_length (gan : GAN) (ls : List (List Rat)) (bs : List Rat) (t : Bool) :
    (ganCall gan ls bs t).length = min ls.length bs.length := by
  simp [ganCall]

theorem takeWhile_lt_range' (n : Nat) :
    ∀ (m s : Nat), (List.range' s m).takeWhile (fun i => decide (i < n)) =
      List.range' s (min m (n - s)) := by
  intro m
  induction m with
  | zero => intro s; simp
  | succ m ih =>
    intro s
    rw [List.range'_succ, List.takeWhile_cons]
    by_cases h : s < n
    · have h1 : min (m + 1) (n - s) = min m (n - (s + 1)) + 1 := by omega
      simp only [h, decide_True, if_true, ih (s + 1), h1, List.range'_succ]
    · have h1 : min (m + 1) (n - s) = 0 := by omega
      simp [h, h1]

theorem takeWhile_lt_range (n m : Nat) :
    (List.range m).takeWhile (fun i => decide (i < n)) = List.range (min m n) := by
  rw [List.range_eq_range', List.range_eq_range', takeWhile_lt_range' n m 0,
    Nat.sub_zero]

theorem plotLoop_nosave (imgs : List Image) (fc : Nat) (path : Option String)
    (hns : path = none ∨ path = some "") :
    ∀ is : List Nat, plotLoop imgs path fc is =
      ((is.takeWhile (fun i => decide (i < imgs.length))).map
        (fun i => (imgs.getD i default).pix.map normPix),
       [],
       is.all (fun i => decide (i < imgs.length))) := by
  intro is
  induction is with
  | nil => rcases hns with rfl | rfl <;> simp [plotLoop]
  | cons i rest ih =>
    by_cases h : i < imgs.length
    · have hg : imgs[i]? = some imgs[i] := List.getElem?_eq_getElem h
      have hd : imgs.getD i default = imgs[i] := by
        rw [List.getD_eq_getElem?_getD, hg]; rfl
      rcases hns with rfl | rfl <;>
        simp [plotLoop, hg, List.takeWhile_cons, h, ih, hd]
    · have hg : imgs[i]? = none := List.getElem?_eq_none (Nat.le_of_not_lt h)
      rcases hns with rfl | rfl <;>
        simp [plotLoop, hg, List.takeWhile_cons, h]

theorem plotLoop_safe (imgs : List Image) (fc : Nat) (p : String) (hp : p ≠ "")
    (hch : ∀ img ∈ imgs, img.channels ≠ 1) :
    ∀ is : List Nat, plotLoop imgs (some p) fc is =
      ((is.takeWhile (fun i => decide (i < imgs.length))).map
        (fun i => (imgs.getD i default).pix.map normPix),
       (is.takeWhile (fun i => decide (i < imgs.length))).map
        (fun i => (pathJoin p ("Dog_" ++ toString (fc + i)) ++ ".jpg",
          ((imgs.getD i default).pix.map normPix).map (fun x => uint8OfRat (255 * x)))),
       is.all (fun i => decide (i < imgs.length))) := by
  intro is
  induction is with
  | nil => simp [plotLoop]
  | cons i rest ih =>
    by_cases h : i < imgs.length
    · have hg : imgs[i]? = some imgs[i] := List.getElem?_eq_getElem h
      have hd : imgs.getD i default = imgs[i] := by
        rw [List.getD_eq_getElem?_getD, hg]; rfl
      have hc : imgs[i].channels ≠ 1 := hch _ (List.getElem_mem h)
      simp [plotLoop, hg, List.takeWhile_cons, h, ih, hd, hp, hc]
    · have hg : imgs[i]? = none := List.getElem?_eq_none (Nat.le_of_not_lt h)
      simp [plotLoop, hg, List.takeWhile_cons, h]

theorem plotLoop_pointwise_save (imgs : List Image) (p : String) (fc : Nat)
    (hp : p ≠ "") : ∀ (k s : Nat),
      (plotLoop imgs (some p) fc (List.range' s k)).1 =
        (List.range' s (plotLoop imgs (some p) fc (List.range' s k)).1.length).map
          (fun i => (imgs.getD i default).pix.map normPix) ∧
      ((plotLoop imgs (some p) fc (List.range' s k)).2.1).map Prod.snd =
        (List.range' s ((plotLoop imgs (some p) fc (List.range' s k)).2.1).length).map
          (fun i => ((imgs.getD i default).pix.map normPix).map
            (fun x => uint8OfRat (255 * x))) := by
  intro k
  induction k with
  | zero => intro s; simp [plotLoop]
  | succ k ih =>
    intro s
    rw [List.range'_succ]
    by_cases h : s < imgs.length
    · have hg : imgs[s]? = some imgs[s] := List.getElem?_eq_getElem h
      have hd : imgs.getD s default = imgs[s] := by
        rw [List.getD_eq_getElem?_getD, hg]; rfl
      obtain ⟨ih1, ih2⟩ := ih (s + 1)
      by_cases hc : imgs[s].channels = 1
      · have hstep : plotLoop imgs (some p) fc (s :: List.range' (s + 1) k) =
            ([imgs[s].pix.map normPix], [], false) := by
          simp [plotLoop, hg, hp, hc]
        rw [hstep]
        refine ⟨?_, by simp⟩
        have hone : List.range' s 1 = [s] := rfl
        simp [hone, List.getD_eq_getElem?_getD, hg]
      · have hstep : plotLoop imgs (some p) fc (s :: List.range' (s + 1) k) =
            ((imgs[s].pix.map normPix) ::
                (plotLoop imgs (some p) fc (List.range' (s + 1) k)).1,
             (pathJoin p ("Dog_" ++ toString (fc + s)) ++ ".jpg",
               (imgs[s].pix.map normPix).map (fun x => uint8OfRat (255 * x))) ::
               (plotLoop imgs (some p) fc (List.range' (s + 1) k)).2.1,
             (plotLoop imgs (some p) fc (List.range' (s + 1) k)).2.2) := by
          simp [plotLoop, hg, hp, hc]
        rw [hstep]
        constructor
        · rw [List.length_cons, List.range'_succ, List.map_cons, ← ih1]
          simp [List.getD_eq_getElem?_getD, hg]
        · rw [List.map_cons, List.length_cons, List.range'_succ, List.map_cons,
            ← ih2]
          simp [List.getD_eq_getElem?_getD, hg]
    · have hg : imgs[s]? = none := List.getElem?_eq_none (Nat.le_of_not_lt h)
      have hstep : plotLoop imgs (some p) fc (s :: List.range' (s + 1) k) =
          ([], [], false) := by
        simp [plotLoop, hg]
      rw [hstep]
      simp

theorem plotLoop_pointwise (imgs : List Image) (path : Option String) (fc : Nat)
    (k s : Nat) :
    (plotLoop imgs path fc (List.range' s k)).1 =
      (List.range' s (plotLoop imgs path fc (List.range' s k)).1.length).map
        (fun i => (imgs.getD i default).pix.map normPix) ∧
    ((plotLoop imgs path fc (List.range' s k)).2.1).map Prod.snd =
      (List.range' s ((plotLoop imgs path fc (List.range' s k)).2.1).length).map
        (fun i => ((imgs.getD i default).pix.map normPix).map
          (fun x => uint8OfRat (255 * x))) := by
  have hns : ∀ q : Option String, q = none ∨ q = some "" →
      (plotLoop imgs q fc (List.range' s k)).1 =
        (List.range' s (plotLoop imgs q fc (List.range' s k)).1.length).map
          (fun i => (imgs.getD i default).pix.map normPix) ∧
      ((plotLoop imgs q fc (List.range' s k)).2.1).map Prod.snd =
        (List.range' s ((plotLoop imgs q fc (List.range' s k)).2.1).length).map
          (fun i => ((imgs.getD i default).pix.map normPix).map
            (fun x => uint8OfRat (255 * x))) := by
    intro q hq
    rw [plotLoop_nosave imgs fc q hq]
    constructor
    · rw [takeWhile_lt_range', List.length_map, List.length_range']
    · simp
  rcases path with _ | p
  · exact hns none (Or.inl rfl)
  · by_cases hp : p = ""
    · subst hp
      exact hns (some "") (Or.inr rfl)
    · exact plotLoop_pointwise_save imgs p fc hp k s

theorem all_range_lt (n : Nat) :
    (List.range n).all (fun i => decide (i < n)) = true := by
  rw [List.all_eq_true]
  intro i hi
  simpa using List.mem_range.mp hi

theorem floorSqrt_eq_sqrt (n : Nat) : floorSqrt n = Nat.sqrt n := by
  have hp : (fun k => decide (k * k ≤ n)) = (fun k => decide (k < Nat.sqrt n + 1)) := by
    funext k
    rw [decide_eq_decide, Nat.lt_succ_iff]
    exact ⟨fun h => Nat.le_sqrt.mpr h, fun h => Nat.le_sqrt.mp h⟩
  have hs : Nat.sqrt n ≤ n := Nat.sqrt_le_self n
  rw [floorSqrt, hp, takeWhile_lt_range, List.length_range]
  omega

/-- Validation of the model of `int(round(np.sqrt(n)))`: `roundSqrt n` is
exactly the integer nearest to the real number `√n` (rounding mode at a tie
is irrelevant because `√n = s + 1/2` is impossible for integers `n`, `s`). -/
theorem roundSqrt_eq_round_real_sqrt (n : Nat) :
    (roundSqrt n : Int) = round (Real.sqrt n) := by
  have hs0 : (Nat.sqrt n : Real) ≤ Real.sqrt n := by
    rcases Nat.eq_zero_or_pos (Nat.sqrt n) with h | h
    · rw [h]; exact_mod_cast Real.sqrt_nonneg _
    · rw [Real.le_sqrt' (by exact_mod_cast h)]
      have := Nat.sqrt_le n
      rw [sq]
      exact_mod_cast this
  have hs1 : Real.sqrt n < (Nat.sqrt n : Real) + 1 := by
    rw [Real.sqrt_lt' (by positivity), sq]
    have h2 : (n : Real) < ((Nat.sqrt n + 1 : Nat) : Real) * ((Nat.sqrt n + 1 : Nat) : Real) := by
      exact_mod_cast Nat.lt_succ_sqrt n
    push_cast at h2
    linarith
  rw [round_eq, roundSqrt, floorSqrt_eq_sqrt]
  by_cases h : n ≤ Nat.sqrt n * Nat.sqrt n + Nat.sqrt n
  · simp only [h, if_true]
    symm
    rw [Int.floor_eq_iff]
    have hlt : Real.sqrt n < (Nat.sqrt n : Real) + 1 / 2 := by
      rw [Real.sqrt_lt' (by positivity)]
      have hn : (n : Real) ≤ (Nat.sqrt n : Real) * Nat.sqrt n + Nat.sqrt n := by
        exact_mod_cast h
      nlinarith
    constructor
    · push_cast; linarith
    · push_cast; linarith
  · simp only [h, if_false]
    symm
    rw [Int.floor_eq_iff]
    have hn : (Nat.sqrt n : Real) * Nat.sqrt n + Nat.sqrt n + 1 ≤ (n : Real) := by
      exact_mod_cast Nat.not_le.mp h
    have hlt : (Nat.sqrt n : Real) + 1 / 2 < Real.sqrt n := by
      rcases lt_or_le ((Nat.sqrt n : Real) + 1 / 2) (Real.sqrt n) with h2 | h2
      · exact h2
      · exfalso
        have hsq := Real.sq_sqrt (by positivity : (0 : Real) ≤ (n : Real))
        nlinarith [Real.sqrt_nonneg (n : Real)]
    constructor
    · push_cast; linarith
    · push_cast; linarith

theorem roundSqrt_of_square (k : Nat) : roundSqrt (k * k) = k := by
  unfold roundSqrt
  rw [floorSqrt_eq_sqrt, Nat.sqrt_eq]
  simp [Nat.le_add_right]

theorem map_getD_range {α β : Type} (l : List α) (f : α → β) (d : α) :
    (List.range l.length).map (fun i => f (l.getD i d)) = l.map f := by
  apply List.ext_getElem
  · simp
  · intro i h1 h2
    simp only [List.getElem_map, List.getElem_range, List.getD_eq_getElem?_getD]
    rw [List.getElem?_eq_getElem (by simpa using h2)]
    rfl

/-! ### The claims -/

/-- Claim C2: `compute_fid` returns exactly the external `calculate_fid`
applied to `scale_images(real_images, (299,299,3))` and
`scale_images(generated_images, (299,299,3))`, where `generated_images` is
the GAN forward pass on randomly sampled inputs; this holds for every
possible behaviour of the external `calculate_fid` and `scale_images`, so the
module itself performs no part of the FID computation. -/
theorem compute_fid_delegates_to_externals
    (calculate_fid : List Image → List Image → Rat)
    (scale_images : List Image → Nat × Nat × Nat → List Image)
    (gan : GAN) (real_images : List Image) (rngLatent rngLabel : Nat → Rat) :
    compute_fid calculate_fid scale_images gan real_images rngLatent rngLabel =
      calculate_fid (scale_images real_images (299, 299, 3))
        (scale_images (computeFidGenerated gan rngLatent rngLabel) (299, 299, 3)) :=
  rfl

/-- Claim C3: `compute_fid` generates exactly 16 images from the GAN no
matter how many real images are passed in (the local `num_images` is never
used), so the two image sets handed to the FID metric have sizes 16 and
`real_images.length`, which differ whenever the real batch is not of
size 16. -/
theorem compute_fid_always_sixteen_generated (gan : GAN) (real_images : List Image)
    (rngLatent rngLabel : Nat → Rat) :
    (computeFidGenerated gan rngLatent rngLabel).length = 16 ∧
    (scale_images_model (computeFidGenerated gan rngLatent rngLabel) (299, 299, 3)).length = 16 ∧
    (scale_images_model real_images (299, 299, 3)).length = real_images.length := by
  refine ⟨?_, ?_, ?_⟩
  · simp [computeFidGenerated, ganCall, truncated_normal, randomLabels]
  · simp [scale_images_model, computeFidGenerated, ganCall, truncated_normal, randomLabels]
  · simp [scale_images_model]

/-- Claim C6: `compute_fid` passes both the real and the generated images
through `scale_images` with the same target shape `(299, 299, 3)` before
invoking `calculate_fid`, so (with `scale_images` modelled from the spec as
resizing to the target shape) the two image sets handed to the FID metric
all have height 299, width 299 and 3 channels. -/
theorem compute_fid_scales_both_to_299
    (calculate_fid : List Image → List Image → Rat) (gan : GAN)
    (real_images : List Image) (rngLatent rngLabel : Nat → Rat) :
    compute_fid calculate_fid scale_images_model gan real_images rngLatent rngLabel =
      calculate_fid (scale_images_model real_images (299, 299, 3))
        (scale_images_model (computeFidGenerated gan rngLatent rngLabel) (299, 299, 3)) ∧
    (∀ img ∈ scale_images_model real_images (299, 299, 3),
      img.height = 299 ∧ img.width = 299 ∧ img.channels = 3) ∧
    (∀ img ∈ scale_images_model (computeFidGenerated gan rngLatent rngLabel) (299, 299, 3),
      img.height = 299 ∧ img.width = 299 ∧ img.channels = 3) := by
  refine ⟨rfl, ?_, ?_⟩ <;>
  · intro img hImg
    simp only [scale_images_model, List.mem_map] at hImg
    obtain ⟨a, -, rfl⟩ := hImg
    exact ⟨rfl, rfl, rfl⟩

/-- Claim C7: in all three generation paths the generator is fed a batch of
truncated-normal latent vectors of shape `(k, gan.latent_dim)` with `k = 1`
for `sample`, `k = 16` for `compute_fid` and `k = num_images` for
`generate_and_plot_images`, and the GAN is always called with
`training = false`. -/
theorem generation_paths_latent_shape_and_training_flag (gan : GAN)
    (rngLatent rngLabel : Nat → Rat) (num_images : Nat)
    (save_path : Option String) (fc : Nat) :
    ((truncated_normal rngLatent 1 gan.latent_dim).length = 1 ∧
      ∀ v ∈ truncated_normal rngLatent 1 gan.latent_dim, v.length = gan.latent_dim) ∧
    ((truncated_normal rngLatent 16 gan.latent_dim).length = 16 ∧
      ∀ v ∈ truncated_normal rngLatent 16 gan.latent_dim, v.length = gan.latent_dim) ∧
    ((truncated_normal rngLatent num_images gan.latent_dim).length = num_images ∧
      ∀ v ∈ truncated_normal rngLatent num_images gan.latent_dim,
        v.length = gan.latent_dim) ∧
    sampleGenImgs gan rngLatent rngLabel =
      ganCall gan (truncated_normal rngLatent 1 gan.latent_dim)
        (randomLabels rngLabel gan.num_classes 1) false ∧
    computeFidGenerated gan rngLatent rngLabel =
      ganCall gan (truncated_normal rngLatent 16 gan.latent_dim)
        (randomLabels rngLabel gan.num_classes 16) false ∧
    generate_and_plot_images gan num_images rngLatent rngLabel save_path fc =
      plot_imgs_grid
        (ganCall gan (truncated_normal rngLatent num_images gan.latent_dim)
          (randomLabels rngLabel gan.num_classes num_images) false) save_path fc :=
  ⟨⟨truncated_normal_length _ _ _, truncated_normal_mem_length _ _ _⟩,
   ⟨truncated_normal_length _ _ _, truncated_normal_mem_length _ _ _⟩,
   ⟨truncated_normal_length _ _ _, truncated_normal_mem_length _ _ _⟩,
   rfl, rfl, rfl⟩

/-- Claim C9: with `path = none` (the default, including via
`generate_and_plot_images` with no save path) `plot_imgs_grid` performs no
write at all: the list of write events is empty. -/
theorem no_writes_without_path (imgs : List Image) (fc : Nat) (gan : GAN)
    (num_images : Nat) (rngLatent rngLabel : Nat → Rat) :
    (plot_imgs_grid imgs none fc).2.1 = [] ∧
    (generate_and_plot_images gan num_images rngLatent rngLabel none fc).2.1 = [] := by
  have hgen : ∀ l : List Image, (plot_imgs_grid l none fc).2.1 = [] := by
    intro l
    rw [plot_imgs_grid, plotLoop_nosave l fc none (Or.inl rfl)]
  exact ⟨hgen imgs, hgen _⟩

/-- Claim C1, counterexample: with 2 input images the grid side is
`round(√2) = 1`, so the single axis shows only the first image — the second
input image is never plotted, refuting the claim that every one of the `n`
input images is plotted for every `n ≥ 1`. -/
theorem plot_imgs_grid_misses_image_of_two :
    ¬ ((plot_imgs_grid [⟨1, 1, 1, [0]⟩, ⟨1, 1, 1, [1]⟩] none 0).1 =
      ([⟨1, 1, 1, [0]⟩, ⟨1, 1, 1, [1]⟩] : List Image).map
        (fun img => img.pix.map normPix)) := by
  intro h
  have hlen := congrArg List.length h
  have h1 : (plot_imgs_grid [⟨1, 1, 1, [0]⟩, ⟨1, 1, 1, [1]⟩] none 0).1.length = 1 := by
    decide
  have h2 : (([⟨1, 1, 1, [0]⟩, ⟨1, 1, 1, [1]⟩] : List Image).map
      (fun img => img.pix.map normPix)).length = 2 := by
    simp
  omega

/-- Claim C1, amended: when the number `n ≥ 1` of input images is a perfect
square, and additionally the call would not abort in the save branch — no
save path is given (`None` or the falsy empty string), or no image is
single-channel (a single-channel image with a truthy path is displayed but
then crashes the loop at `img.numpy()`) — `plot_imgs_grid` arranges the
images in a square grid of side `round(√n)` with exactly `n` cells, every
axis index stays in bounds (no exception), and every one of the `n` input
images is plotted, in order.  (For non-square `n` the loop either skips
images, when `round(√n)² < n`, or indexes out of bounds, when
`round(√n)² > n`.) -/
theorem plot_imgs_grid_square_grid_complete (imgs : List Image)
    (path : Option String) (fc : Nat) (hpos : 1 ≤ imgs.length)
    (hsq : ∃ k, imgs.length = k * k)
    (hsafe : path = none ∨ path = some "" ∨ ∀ img ∈ imgs, img.channels ≠ 1) :
    roundSqrt imgs.length * roundSqrt imgs.length = imgs.length ∧
    (plot_imgs_grid imgs path fc).2.2 = true ∧
    (plot_imgs_grid imgs path fc).1 = imgs.map (fun img => img.pix.map normPix) := by
  obtain ⟨k, hk⟩ := hsq
  have hr : roundSqrt imgs.length = k := by rw [hk, roundSqrt_of_square]
  have hgrid : gridIndices imgs.length = List.range imgs.length := by
    rw [gridIndices, hr, ← hk]
  have hfin : ((List.range imgs.length).takeWhile
      (fun i => decide (i < imgs.length))).map
        (fun i => (imgs.getD i default).pix.map normPix) =
      imgs.map (fun img => img.pix.map normPix) := by
    rw [takeWhile_lt_range, min_self]
    exact map_getD_range imgs (fun img => img.pix.map normPix) default
  refine ⟨by rw [hr, ← hk], ?_⟩
  rcases hsafe with rfl | rfl | hch
  · rw [plot_imgs_grid, plotLoop_nosave imgs fc none (Or.inl rfl), hgrid]
    exact ⟨all_range_lt _, hfin⟩
  · rw [plot_imgs_grid, plotLoop_nosave imgs fc (some "") (Or.inr rfl), hgrid]
    exact ⟨all_range_lt _, hfin⟩
  · rcases path with _ | p
    · rw [plot_imgs_grid, plotLoop_nosave imgs fc none (Or.inl rfl), hgrid]
      exact ⟨all_range_lt _, hfin⟩
    · by_cases hp : p = ""
      · subst hp
        rw [plot_imgs_grid, plotLoop_nosave imgs fc (some "") (Or.inr rfl), hgrid]
        exact ⟨all_range_lt _, hfin⟩
      · rw [plot_imgs_grid, plotLoop_safe imgs fc p hp hch, hgrid]
        exact ⟨all_range_lt _, hfin⟩

/-- Claim C1, witness for the amended statement at a concrete batch of 4
images (a 2 × 2 grid) and no save path. -/
theorem plot_imgs_grid_square_grid_complete_witness :
    (1 ≤ ([⟨1, 1, 1, [0]⟩, ⟨1, 1, 1, [1]⟩, ⟨1, 1, 1, [1/2]⟩, ⟨1, 1, 1, [-1]⟩] :
        List Image).length ∧
      (∃ k, ([⟨1, 1, 1, [0]⟩, ⟨1, 1, 1, [1]⟩, ⟨1, 1, 1, [1/2]⟩, ⟨1, 1, 1, [-1]⟩] :
        List Image).length = k * k) ∧
      ((none : Option String) = none ∨ (none : Option String) = some "" ∨
        ∀ img ∈ ([⟨1, 1, 1, [0]⟩, ⟨1, 1, 1, [1]⟩, ⟨1, 1, 1, [1/2]⟩,
          ⟨1, 1, 1, [-1]⟩] : List Image), img.channels ≠ 1)) ∧
    (roundSqrt ([⟨1, 1, 1, [0]⟩, ⟨1, 1, 1, [1]⟩, ⟨1, 1, 1, [1/2]⟩, ⟨1, 1, 1, [-1]⟩] :
        List Image).length *
      roundSqrt ([⟨1, 1, 1, [0]⟩, ⟨1, 1, 1, [1]⟩, ⟨1, 1, 1, [1/2]⟩, ⟨1, 1, 1, [-1]⟩] :
        List Image).length =
      ([⟨1, 1, 1, [0]⟩, ⟨1, 1, 1, [1]⟩, ⟨1, 1, 1, [1/2]⟩, ⟨1, 1, 1, [-1]⟩] :
        List Image).length ∧
    (plot_imgs_grid [⟨1, 1, 1, [0]⟩, ⟨1, 1, 1, [1]⟩, ⟨1, 1, 1, [1/2]⟩, ⟨1, 1, 1, [-1]⟩]
        none 0).2.2 = true ∧
    (plot_imgs_grid [⟨1, 1, 1, [0]⟩, ⟨1, 1, 1, [1]⟩, ⟨1, 1, 1, [1/2]⟩, ⟨1, 1, 1, [-1]⟩]
        none 0).1 =
      ([⟨1, 1, 1, [0]⟩, ⟨1, 1, 1, [1]⟩, ⟨1, 1, 1, [1/2]⟩, ⟨1, 1, 1, [-1]⟩] :
        List Image).map (fun img => img.pix.map normPix)) :=
  ⟨⟨by decide, ⟨2, by decide⟩, Or.inl rfl⟩,
    plot_imgs_grid_square_grid_complete _ none 0 (by decide) ⟨2, by decide⟩
      (Or.inl rfl)⟩

/-- Claim C4, counterexample: one single-channel image with save path
`"out"`.  The image is plotted (displayed), but the save branch raises
`AttributeError` at `img.numpy()` — `np.squeeze` has turned the tensor into
a plain NumPy array — before any `cv2.imwrite`, so a plotted image gets no
write, refuting "for each plotted image i it writes one JPEG file". -/
theorem plot_imgs_grid_single_channel_no_write :
    (plot_imgs_grid [⟨1, 1, 1, [0]⟩] (some "out") 0).1.length = 1 ∧
    (plot_imgs_grid [⟨1, 1, 1, [0]⟩] (some "out") 0).2.1 = [] ∧
    ¬ ((plot_imgs_grid [⟨1, 1, 1, [0]⟩] (some "out") 0).2.1.length =
      (plot_imgs_grid [⟨1, 1, 1, [0]⟩] (some "out") 0).1.length) := by
  refine ⟨rfl, rfl, ?_⟩
  decide

/-- Claim C4, amended: when `plot_imgs_grid` is given a non-empty path `p`
(Python's `if path:` is falsy for the empty string) and no input image is
single-channel (a single-channel image makes the save branch raise at
`img.numpy()` before writing), it performs exactly one write per plotted
image, the `i`-th (0-based) write going to file `p/Dog_<fc+i>.jpg` where
`fc` is the number of files found by recursively walking `p` before any
write. -/
theorem plot_imgs_grid_write_names (imgs : List Image) (p : String) (fc : Nat)
    (hp : p ≠ "") (hch : ∀ img ∈ imgs, img.channels ≠ 1) :
    ((plot_imgs_grid imgs (some p) fc).2.1).map Prod.fst =
      (List.range ((plot_imgs_grid imgs (some p) fc).1).length).map
        (fun i => pathJoin p ("Dog_" ++ toString (fc + i)) ++ ".jpg") ∧
    ((plot_imgs_grid imgs (some p) fc).2.1).length =
      ((plot_imgs_grid imgs (some p) fc).1).length := by
  rw [plot_imgs_grid, plotLoop_safe imgs fc p hp hch, gridIndices, takeWhile_lt_range]
  constructor
  · rw [List.map_map, List.length_map, List.length_range]
    simp [Function.comp]
  · rw [List.length_map, List.length_map]

/-- Claim C4, witness for the amended statement: one 3-channel image saved
under path `"out"`; the single write is `out/Dog_0.jpg`. -/
theorem plot_imgs_grid_write_names_witness :
    (("out" : String) ≠ "" ∧
      ∀ img ∈ ([⟨1, 1, 3, [0, 0, 0]⟩] : List Image), img.channels ≠ 1) ∧
    (((plot_imgs_grid [⟨1, 1, 3, [0, 0, 0]⟩] (some "out") 0).2.1).map Prod.fst =
      (List.range ((plot_imgs_grid [⟨1, 1, 3, [0, 0, 0]⟩] (some "out") 0).1).length).map
        (fun i => pathJoin "out" ("Dog_" ++ toString (0 + i)) ++ ".jpg") ∧
    ((plot_imgs_grid [⟨1, 1, 3, [0, 0, 0]⟩] (some "out") 0).2.1).length =
      ((plot_imgs_grid [⟨1, 1, 3, [0, 0, 0]⟩] (some "out") 0).1).length) :=
  ⟨⟨by decide, by decide⟩,
    plot_imgs_grid_write_names [⟨1, 1, 3, [0, 0, 0]⟩] "out" 0 (by decide) (by decide)⟩

/-- Claim C5: every image displayed by `sample` or by `plot_imgs_grid` is
the corresponding source image normalized pixelwise by `x ↦ (x + 1) / 2`
(the `i`-th displayed pixel array is input image `i` normalized), and every
saved image's pixel values are that normalized image multiplied by 255 and
cast to `uint8` (the `i`-th write, when it occurs, carries input image `i`
normalized, scaled and truncated); this holds per display/write event that
actually occurs, for every path. -/
theorem displayed_and_saved_normalization (gan : GAN)
    (rngLatent rngLabel : Nat → Rat) (imgs : List Image) (path : Option String)
    (p : String) (fc : Nat) :
    sampleDisplayed gan rngLatent rngLabel =
      ((sampleGenImgs gan rngLatent rngLabel).getD 0 default).pix.map normPix ∧
    (plot_imgs_grid imgs path fc).1 =
      (List.range (plot_imgs_grid imgs path fc).1.length).map
        (fun i => (imgs.getD i default).pix.map normPix) ∧
    ((plot_imgs_grid imgs (some p) fc).2.1).map Prod.snd =
      (List.range ((plot_imgs_grid imgs (some p) fc).2.1).length).map
        (fun i => ((imgs.getD i default).pix.map normPix).map
          (fun x => uint8OfRat (255 * x))) := by
  refine ⟨?_, ?_, ?_⟩
  · have hlen : 0 < (sampleGenImgs gan rngLatent rngLabel).length := by
      simp [sampleGenImgs, ganCall, truncated_normal, randomLabels]
    have h0 := List.getElem?_eq_getElem hlen
    rw [sampleDisplayed, h0, List.getD_eq_getElem?_getD, h0]
    rfl
  · rw [plot_imgs_grid, gridIndices]
    simp only [List.range_eq_range']
    exact (plotLoop_pointwise imgs path fc
      (roundSqrt imgs.length * roundSqrt imgs.length) 0).1
  · rw [plot_imgs_grid, gridIndices]
    simp only [List.range_eq_range']
    exact (plotLoop_pointwise imgs (some p) fc
      (roundSqrt imgs.length * roundSqrt imgs.length) 0).2

/-- Claim C8: every random class label is `floor(num_classes * u)` with `u`
drawn uniformly from `[0, 1)`, hence an integer-valued tensor entry between
`0` and `num_classes - 1` inclusive; `randomLabels` is the label computation
shared by all three generation paths (`sample` with `k = 1`, `compute_fid`
with `k = 16`, `generate_and_plot_images` with `k = num_images`). -/
theorem randomLabels_integer_in_range (rng : Nat → Rat) (num_classes k : Nat)
    (hnc : 0 < num_classes) (hrng : ∀ i, 0 ≤ rng i ∧ rng i < 1) :
    ∀ lab ∈ randomLabels rng num_classes k,
      lab.den = 1 ∧ 0 ≤ lab ∧ lab ≤ (num_classes : Rat) - 1 := by
  intro lab hl
  simp only [randomLabels, List.mem_map, List.mem_range] at hl
  obtain ⟨i, -, rfl⟩ := hl
  have h0 : (0 : Rat) ≤ (num_classes : Rat) * rng i :=
    mul_nonneg (by positivity) (hrng i).1
  have h1 : (num_classes : Rat) * rng i < num_classes := by
    calc (num_classes : Rat) * rng i
        < (num_classes : Rat) * 1 := by
          apply mul_lt_mul_of_pos_left (hrng i).2
          exact_mod_cast hnc
      _ = num_classes := mul_one _
  have hf0 : 0 ≤ ⌊(num_classes : Rat) * rng i⌋ := Int.floor_nonneg.mpr h0
  have hf1 : ⌊(num_classes : Rat) * rng i⌋ < (num_classes : Int) := by
    rw [Int.floor_lt]
    exact_mod_cast h1
  refine ⟨Rat.den_intCast _, by exact_mod_cast hf0, ?_⟩
  have hle : ⌊(num_classes : Rat) * rng i⌋ ≤ (num_classes : Int) - 1 := by omega
  exact_mod_cast hle

/-- Claim C8, witness: `num_classes = 3`, two uniform draws equal to `1/2`;
both labels are the integer `1 ∈ [0, 2]`. -/
theorem randomLabels_integer_in_range_witness :
    0 < 3 ∧ (∀ i : Nat, 0 ≤ (fun _ : Nat => (1 : Rat) / 2) i ∧
      (fun _ : Nat => (1 : Rat) / 2) i < 1) ∧
    ∀ lab ∈ randomLabels (fun _ => (1 : Rat) / 2) 3 2,
      lab.den = 1 ∧ 0 ≤ lab ∧ lab ≤ ((3 : Nat) : Rat) - 1 :=
  ⟨Nat.zero_lt_succ 2, fun _ => by norm_num,
    randomLabels_integer_in_range (fun _ => (1 : Rat) / 2) 3 2
      (Nat.zero_lt_succ 2) (fun _ => by norm_num)⟩

/-- Claim C10: `loss_curve` reads exactly the series under the keys
`"g_loss"` and `"d_loss"` of the training history (histories agreeing on
those two keys produce the same plot) and plots them against epoch index
`0, 1, ...`, labelled `"generator loss"` and `"discriminator loss"`, with
axis labels `"Epoch"` and `"Loss"`. -/
theorem loss_curve_keys_and_labels (h1 h2 : String → List Rat)
    (hg : h1 "g_loss" = h2 "g_loss") (hd : h1 "d_loss" = h2 "d_loss") :
    loss_curve h1 = loss_curve h2 ∧
    (loss_curve h1).curves =
      [(List.range (h1 "g_loss").length, h1 "g_loss", "generator loss"),
       (List.range (h1 "d_loss").length, h1 "d_loss", "discriminator loss")] ∧
    (loss_curve h1).xlabel = "Epoch" ∧ (loss_curve h1).ylabel = "Loss" := by
  refine ⟨?_, rfl, rfl, rfl⟩
  unfold loss_curve
  rw [hg, hd]

/-- A concrete training history for the claim C10 witness. -/
def exHistory1 : String → List Rat := fun k =>
  if k = "g_loss" then [1] else if k = "d_loss" then [2, 3] else [4]

/-- A second concrete training history, agreeing with `exHistory1` on
`"g_loss"` and `"d_loss"` but differing elsewhere. -/
def exHistory2 : String → List Rat := fun k =>
  if k = "g_loss" then [1] else if k = "d_loss" then [2, 3] else [5]

/-- Claim C10, witness: the two concrete histories agree on the two loss
keys, so `loss_curve` plots them identically, with the stated labels. -/
theorem loss_curve_keys_and_labels_witness :
    exHistory1 "g_loss" = exHistory2 "g_loss" ∧
    exHistory1 "d_loss" = exHistory2 "d_loss" ∧
    (loss_curve exHistory1 = loss_curve exHistory2 ∧
     (loss_curve exHistory1).curves =
       [(List.range (exHistory1 "g_loss").length, exHistory1 "g_loss",
          "generator loss"),
        (List.range (exHistory1 "d_loss").length, exHistory1 "d_loss",
          "discriminator loss")] ∧
     (loss_curve exHistory1).xlabel = "Epoch" ∧
     (loss_curve exHistory1).ylabel = "Loss") :=
  ⟨rfl, rfl, loss_curve_keys_and_labels exHistory1 exHistory2 rfl rfl⟩

end GanDogs
